import Mathlib

/-!
Shallow embedding of the tag_fs tag-graph storage engine (src/src/fs/defs.rs,
src/src/fs/nodes.rs, src/src/fs/mod.rs).

Modelling conventions:
* Machine integers are `Nat`/`Int`; wrapping casts are written explicitly
  (`% 2^64`, `% 2^32`, `% 2^16`) exactly where the source performs an `as` cast.
* `SystemTime` is modelled as a signed count of nanoseconds from the Unix epoch.
* `Uuid::new_v4()` draws fresh random 128-bit identifiers; the model draws them
  from a monotone counter carried in the filesystem state, which captures the
  uniqueness the code relies on (spec invariant 2).
* The SHA3-256 digest of the hasher state is modelled as the absorbed byte
  list itself (`calculate_hash`), which preserves the two properties the code
  uses: determinism and collision-freedom.  In the live code paths nothing is
  ever absorbed, so every digest equals `calculate_hash []`, as in the source
  where every `FileNode` gets the digest of the empty string.
* The on-disk store (five sub-directories of key files plus the `inodes/`
  symlink farm) is modelled as association lists with last-write-wins upsert.
* File names (`OsString`) are modelled as `String` with byte-exact equality.
-/

namespace TagFs

/-! ### Time primitives (src/src/fs/defs.rs lines 25-42) -/

/-- Semantics of `u64 as i64` (two's-complement reinterpretation). -/
def toI64 (n : Nat) : Int :=
  if n % 2^64 < 2^63 then ((n % 2^64 : Nat) : Int) else ((n % 2^64 : Nat) : Int) - 2^64

/-- `system_time_from_time(secs, nsecs)` from defs.rs: build a wall-clock
instant, subtracting from the epoch when `secs` is negative.  The instant is
the signed nanosecond count from the epoch. -/
def system_time_from_time (secs : Int) (nsecs : Nat) : Int :=
  if secs ≥ 0 then secs * 1000000000 + nsecs
  else -((-secs) * 1000000000 + nsecs)

/-- `time_from_system_time` from defs.rs: `duration_since(UNIX_EPOCH)` succeeds
for instants at or after the epoch and otherwise reports the positive
difference, which the code negates (`as_secs() as i64` is a wrapping cast). -/
def time_from_system_time (t : Int) : Int × Nat :=
  if t ≥ 0 then (toI64 (t.toNat / 1000000000), t.toNat % 1000000000)
  else (-(toI64 ((-t).toNat / 1000000000)), (-t).toNat % 1000000000)

/-! ### Serialisation of `Hash256` (src/src/fs/defs.rs lines 47-147)

`bincode` with default options: fixed-width little-endian integers, `u64`
length prefixes.  `impl Serialize for Hash256` writes one struct field holding
the lowercase-hex `String` of the 32-byte digest (length prefix + bytes).  The
`#[derive(Deserialize)]` on `Hash256` expects the field to be the raw 32-byte
`GenericArray`, which bincode reads as 32 raw bytes.  (The additional
hand-written `impl Deserialize for Hash256` at lines 82-147 does not even
produce a `Hash256`: its visitor assembles a `Duration` from `secs`/`nanos`
fields.) -/

/-- Little-endian `u64` encoding used by bincode's length prefixes. -/
def u64le (n : Nat) : List Nat :=
  [n % 256, n / 256 % 256, n / 256^2 % 256, n / 256^3 % 256,
   n / 256^4 % 256, n / 256^5 % 256, n / 256^6 % 256, n / 256^7 % 256]

/-- ASCII code of a lowercase hex digit. -/
def hexDigit (n : Nat) : Nat := if n < 10 then 48 + n else 87 + n

/-- Lowercase-hex encoding of one byte (two ASCII characters). -/
def byteHex (b : Nat) : List Nat := [hexDigit (b / 16), hexDigit (b % 16)]

/-- Lowercase-hex encoding of a byte string, as produced by `format!("{:x}")`
on the digest. -/
def hexBytes : List Nat → List Nat
  | [] => []
  | b :: bs => byteHex b ++ hexBytes bs

/-- Bytes written for a `Hash256` by the store's serialisation: the custom
`Serialize` impl emits the digest's 64-character hex string, which bincode
frames as a `u64` length followed by the ASCII bytes. -/
def serialize_hash256 (code : List Nat) : List Nat :=
  u64le (2 * code.length) ++ hexBytes code

/-- Bytes consumed for a `Hash256` by the derived `Deserialize`: the `code`
field is a 32-byte array, which bincode reads as 32 raw bytes; remaining input
is returned for the following fields. -/
def deserialize_hash256 (bytes : List Nat) : Option (List Nat × List Nat) :=
  if 32 ≤ bytes.length then some (bytes.take 32, bytes.drop 32) else none

/-- The all-zero 256-bit digest, a concrete `Hash256` payload. -/
def zeroDigest : List Nat := List.replicate 32 0

/-! ### Data model (src/src/fs/defs.rs, src/src/fs/nodes.rs) -/

/-- Content digest: `Hash256 { code: GenericArray<u8, 32> }`.  The digest is
modelled by the absorbed hasher input (see the header comment). -/
structure Hash256 where
  code : List Nat
  deriving DecidableEq

/-- Surrogate 128-bit identifier (`uuid::Uuid`), modelled as a fresh number. -/
abbrev Uuid := Nat

/-- `FileKind` from defs.rs. -/
inductive FileKind where
  | file
  | directory
  | symlink
  deriving DecidableEq

/-- `InodeAttributes` from defs.rs.  Times are `(secs: i64, nsecs: u32)`. -/
structure InodeAttributes where
  inode : Nat
  open_file_handles : Nat
  size : Nat
  last_accessed : Int × Nat
  last_modified : Int × Nat
  last_metadata_changed : Int × Nat
  kind : FileKind
  mode : Nat
  hardlinks : Nat
  uid : Nat
  gid : Nat
  deriving DecidableEq

/-- `InodeAttributes::new_file_attr` (defs.rs lines 207-223).  The wall clock
and the calling process's uid/gid are external inputs, passed explicitly. -/
def new_file_attr (now : Int × Nat) (procUid procGid : Nat)
    (inode : Nat) (kind : FileKind) (mode : Nat) : InodeAttributes :=
  { inode := inode
    open_file_handles := 0
    size := 0
    last_accessed := now
    last_modified := now
    last_metadata_changed := now
    kind := kind
    mode := mode
    hardlinks := 0
    uid := procUid
    gid := procGid }

/-- `Node` from nodes.rs: a reference to a target entity. -/
inductive Node where
  | file (hash : Hash256)
  | tag (id : Uuid)
  deriving DecidableEq

/-- `NameNode` from nodes.rs: a labelled edge from a tag to a target. -/
structure NameNode where
  id : Uuid
  name : String
  link : Node
  deriving DecidableEq

/-- `FileNode` from nodes.rs. -/
structure FileNode where
  hash : Hash256
  file_attr : InodeAttributes
  back_links : List NameNode
  deriving DecidableEq

/-- `TagNode` from nodes.rs.  `dir_links : BTreeSet<Uuid>` is modelled as a
strictly sorted list. -/
structure TagNode where
  id : Uuid
  dir_attr : InodeAttributes
  back_links : List Uuid
  dir_links : List Uuid
  deriving DecidableEq

/-- `INode` from nodes.rs: a loaded entity. -/
inductive INode where
  | file (f : FileNode)
  | tag (t : TagNode)
  deriving DecidableEq

/-- Ordered insertion into a `BTreeSet<Uuid>` modelled as a sorted list. -/
def insertSorted (x : Uuid) : List Uuid → List Uuid
  | [] => [x]
  | y :: ys => if x < y then x :: y :: ys else if x = y then y :: ys else y :: insertSorted x ys

/-- `Sha3_256::calculate_hash` (defs.rs lines 56-62): finalize-and-reset of the
running hasher state; the digest is modelled by the absorbed input. -/
def calculate_hash (hasher : List Nat) : Hash256 := ⟨hasher⟩

/-- `FileNode::new` (nodes.rs lines 33-46). -/
def FileNode.new (hasher : List Nat) (ino : Nat) (attr : Option InodeAttributes)
    (now : Int × Nat) (procUid procGid : Nat) : FileNode :=
  { hash := calculate_hash hasher
    file_attr :=
      match attr with
      | some x => { x with inode := ino }
      | none => new_file_attr now procUid procGid ino .file 0o644
    back_links := [] }

/-- `TagNode::new` (nodes.rs lines 89-103); the fresh v4 uuid is an input. -/
def TagNode.new (uuid : Uuid) (ino : Nat) (attr : Option InodeAttributes)
    (now : Int × Nat) (procUid procGid : Nat) : TagNode :=
  { id := uuid
    dir_attr :=
      match attr with
      | some x => { x with inode := ino }
      | none => new_file_attr now procUid procGid ino .directory 0o644
    back_links := []
    dir_links := [] }

/-- `TagNode::add_file` (nodes.rs lines 105-107): inserts the name node's id
into the outgoing `BTreeSet`. -/
def TagNode.add_file (t : TagNode) (n : NameNode) : TagNode :=
  { t with dir_links := insertSorted n.id t.dir_links }

/-- `NameNode::new` (nodes.rs lines 170-186); the fresh v4 uuid is an input. -/
def NameNode.new (uuid : Uuid) (name : String) (link : Node) : NameNode :=
  { id := uuid, name := name, link := link }

/-- `INode::to_node` (nodes.rs lines 128-135). -/
def INode.to_node : INode → Node
  | .file f => .file f.hash
  | .tag t => .tag t.id

/-! ### Persistent store -/

/-- Association-list lookup (first match). -/
def lookupA {α β : Type} [DecidableEq α] : List (α × β) → α → Option β
  | [], _ => none
  | (k, v) :: rest, key => if key = k then some v else lookupA rest key

/-- Association-list upsert: truncate-and-rewrite of the key file. -/
def insertA {α β : Type} [DecidableEq α] (key : α) (val : β) :
    List (α × β) → List (α × β)
  | [] => [(key, val)]
  | (k, v) :: rest => if key = k then (key, val) :: rest else (k, v) :: insertA key val rest

/-- Target of an `inodes/<n>` symbolic link: a file in `filenodes/` or
`tagnodes/`. -/
inductive SymTarget where
  | toFile (hash : Hash256)
  | toTag (id : Uuid)
  deriving DecidableEq

/-- The five sub-directories of the on-disk store under the base path. -/
structure Store where
  filenodes : List (Hash256 × FileNode)
  tagnodes : List (Uuid × TagNode)
  namenodes : List (String × List Uuid)
  namenodes_id : List (Uuid × NameNode)
  inodes : List (Nat × SymTarget)
  deriving DecidableEq

/-- Empty store, as laid out by `TagFS::new` (mod.rs lines 34-54). -/
def Store.empty : Store :=
  { filenodes := [], tagnodes := [], namenodes := [], namenodes_id := [], inodes := [] }

/-- `TagFS` (mod.rs lines 26-31) together with the store it owns and the
counter modelling `Uuid::new_v4` freshness. -/
structure TagFS where
  hasher : List Nat
  store : Store
  inode_cur : Nat
  filehandle_cur : Nat
  uuid_cur : Nat
  deriving DecidableEq

/-- `TagFS::new` (mod.rs lines 34-54): fresh counters, existing store
directories are kept (`create_dir_all`). -/
def TagFS.new : TagFS :=
  { hasher := [], store := Store.empty, inode_cur := 1, filehandle_cur := 1, uuid_cur := 0 }

/-- Re-mount: a new process constructs `TagFS::new` over the surviving store
directory.  Fresh v4 uuids remain globally unique across processes, so the
uuid counter carries over. -/
def TagFS.remount (fs : TagFS) : TagFS :=
  { TagFS.new with store := fs.store, uuid_cur := fs.uuid_cur }

/-- `TagFS::get_inode_cur` (mod.rs lines 56-60). -/
def TagFS.get_inode_cur (fs : TagFS) : Nat × TagFS :=
  (fs.inode_cur, { fs with inode_cur := fs.inode_cur + 1 })

/-- `TagFS::get_filehandle_cur` (mod.rs lines 62-66). -/
def TagFS.get_filehandle_cur (fs : TagFS) : Nat × TagFS :=
  (fs.filehandle_cur, { fs with filehandle_cur := fs.filehandle_cur + 1 })

/-- Draw a fresh `Uuid::new_v4` (see the header comment). -/
def TagFS.freshUuid (fs : TagFS) : Uuid × TagFS :=
  (fs.uuid_cur, { fs with uuid_cur := fs.uuid_cur + 1 })

/-- `TagFS::get_inode` (mod.rs lines 89-109): follow the `inodes/<n>` symlink,
discriminate by the parent directory, deserialise the record. -/
def TagFS.get_inode (fs : TagFS) (ino : Nat) : Option INode :=
  match lookupA fs.store.inodes ino with
  | some (.toTag id) => (lookupA fs.store.tagnodes id).map INode.tag
  | some (.toFile h) => (lookupA fs.store.filenodes h).map INode.file
  | none => none

/-- `TagFS::get_node_from_inode` (mod.rs lines 111-117). -/
def TagFS.get_node_from_inode (fs : TagFS) (ino : Nat) : Option Node :=
  match fs.get_inode ino with
  | some (.file f) => some (.file f.hash)
  | some (.tag t) => some (.tag t.id)
  | none => none

/-- `TagFS::get_name_node` (mod.rs lines 119-127): read `namenodes_id/<uuid>`. -/
def TagFS.get_name_node (fs : TagFS) (id : Uuid) : Option NameNode :=
  lookupA fs.store.namenodes_id id

/-- `TagFS::get_node` (mod.rs lines 129-150): read `filenodes/<hash>` or
`tagnodes/<id>` directly. -/
def TagFS.get_node (fs : TagFS) (link : Node) : Option INode :=
  match link with
  | .file h => (lookupA fs.store.filenodes h).map INode.file
  | .tag id => (lookupA fs.store.tagnodes id).map INode.tag

/-- Modelled from the spec: `rewrite_symlink`, imported by mod.rs from defs.rs
but absent from the sources given; spec §4.4 fixes its behaviour as
"atomically replace the `inodes/<n>` symlink ... remove-if-exists then
create-symlink", i.e. an upsert of the symlink entry. -/
def rewrite_symlink (target : SymTarget) (ino : Nat) (inodes : List (Nat × SymTarget)) :
    List (Nat × SymTarget) :=
  insertA ino target inodes

/-- `TagFS::write_file_node` (mod.rs lines 159-178): write `filenodes/<hash>`
then re-point `inodes/<ino>`. -/
def TagFS.write_file_node (fs : TagFS) (inode : FileNode) : TagFS :=
  { fs with store :=
      { fs.store with
        filenodes := insertA inode.hash inode fs.store.filenodes
        inodes := rewrite_symlink (.toFile inode.hash) inode.file_attr.inode fs.store.inodes } }

/-- `TagFS::write_tag_node` (mod.rs lines 180-199): write `tagnodes/<id>` then
re-point `inodes/<ino>`. -/
def TagFS.write_tag_node (fs : TagFS) (inode : TagNode) : TagFS :=
  { fs with store :=
      { fs.store with
        tagnodes := insertA inode.id inode fs.store.tagnodes
        inodes := rewrite_symlink (.toTag inode.id) inode.dir_attr.inode fs.store.inodes } }

/-- `TagFS::insert_inode` (mod.rs lines 152-157). -/
def TagFS.insert_inode (fs : TagFS) : INode → TagFS
  | .tag t => fs.write_tag_node t
  | .file f => fs.write_file_node f

/-- `TagFS::insert_name_node` (mod.rs lines 201-236): insert the id into the
set stored under the name key, then write the record under the id key. -/
def TagFS.insert_name_node (fs : TagFS) (n : NameNode) : TagFS :=
  let b := match lookupA fs.store.namenodes n.name with
    | some s => s
    | none => []
  let b := insertSorted n.id b
  { fs with store :=
      { fs.store with
        namenodes := insertA n.name b fs.store.namenodes
        namenodes_id := insertA n.id n fs.store.namenodes_id } }

/-- Body of the loop in `TagFS::search_name` (mod.rs lines 240-254): first
name-equal entry whose target resolves; failures continue the scan. -/
def TagFS.search_name_go (fs : TagFS) (os_name : String) : List Uuid → Option INode
  | [] => none
  | id :: rest =>
    match fs.get_name_node id with
    | some nn =>
      if nn.name = os_name then
        match fs.get_node nn.link with
        | some node => some node
        | none => fs.search_name_go os_name rest
      else fs.search_name_go os_name rest
    | none => fs.search_name_go os_name rest

/-- `TagFS::search_name` (mod.rs lines 240-254). -/
def TagFS.search_name (fs : TagFS) (t : TagNode) (os_name : String) : Option INode :=
  fs.search_name_go os_name t.dir_links

/-! ### Kernel-callback adapter (impl Filesystem for TagFS, mod.rs lines 257-1021)

Errno values are the Linux `libc` constants; reply TTLs are in seconds.
The reply buffer handed to `readdir` belongs to the kernel transport (an
external collaborator per spec §1); it is modelled as unbounded, so the
emitted entries are the full sequence the loop would feed to `reply.add`. -/

/-- `libc::ENOENT`. -/
def ENOENT : Nat := 2
/-- `libc::ENOTDIR`. -/
def ENOTDIR : Nat := 20
/-- `libc::EISDIR`. -/
def EISDIR : Nat := 21
/-- `libc::ENOSYS`. -/
def ENOSYS : Nat := 38

/-- `TTL` (defs.rs line 15): one second. -/
def TTL : Nat := 1

/-- `libc::S_IFMT`. -/
def S_IFMT : Nat := 0o170000
/-- `libc::S_IFREG`. -/
def S_IFREG : Nat := 0o100000
/-- `libc::S_IFDIR`. -/
def S_IFDIR : Nat := 0o040000

/-- `mode &= !(S_ISUID | S_ISGID)` within `u32` (mod.rs lines 444-446 and
559-561): clear the setuid and setgid bits. -/
def clear_suid_sgid (mode : Nat) : Nat := mode &&& (2^32 - 1 - 0o6000)

/-- Reply to `lookup`/`mknod` (`ReplyEntry`). -/
inductive EntryReply where
  | entry (ttl : Nat) (attr : InodeAttributes) (generation : Nat)
  | error (errno : Nat)
  deriving DecidableEq

/-- Reply to `getattr` (`ReplyAttr`). -/
inductive AttrReply where
  | attr (ttl : Nat) (a : InodeAttributes)
  | error (errno : Nat)
  deriving DecidableEq

/-- Reply to `create` (`ReplyCreate`). -/
inductive CreateReply where
  | created (ttl : Nat) (a : InodeAttributes) (generation : Nat) (fh : Nat) (flags : Nat)
  | error (errno : Nat)
  deriving DecidableEq

/-- Reply to `read` (`ReplyData`). -/
inductive ReadReply where
  | data (bytes : List Nat)
  | error (errno : Nat)
  deriving DecidableEq

/-- One entry fed to `reply.add` in `readdir`: inode, reported offset, kind,
name (mod.rs lines 399-404). -/
structure DirEntry where
  ino : Nat
  off : Nat
  kind : FileKind
  name : String
  deriving DecidableEq

/-- Reply to `readdir` (`ReplyDirectory`). -/
inductive ReaddirReply where
  | ok (entries : List DirEntry)
  | error (errno : Nat)
  deriving DecidableEq

/-- `init` (mod.rs lines 258-280): unconditionally build a fake root tag at
the next inode number, a test `FileNode`, and a `NameNode` named `file1`, and
write all three.  `FileNode::new` finalize-resets the hasher, leaving it
empty. -/
def TagFS.init (fs : TagFS) (now : Int × Nat) (procUid procGid : Nat) : TagFS :=
  let (root_ino, fs) := fs.get_inode_cur
  let (root_uuid, fs) := fs.freshUuid
  let fake_root := TagNode.new root_uuid root_ino none now procUid procGid
  let (file_ino, fs) := fs.get_inode_cur
  let file_node := FileNode.new fs.hasher file_ino none now procUid procGid
  let fs := { fs with hasher := [] }
  let (nn_uuid, fs) := fs.freshUuid
  let name_node := NameNode.new nn_uuid "file1" (.file file_node.hash)
  let fake_root := fake_root.add_file name_node
  let fs := fs.insert_inode (.file file_node)
  let fs := fs.insert_inode (.tag fake_root)
  let fs := fs.insert_name_node name_node
  fs

/-- `lookup` (mod.rs lines 282-312): only a parent that loads as a `TagNode`
is searched; every other case, including a parent that loads as a `FileNode`,
falls through to `reply.error(ENOENT)`. -/
def TagFS.lookup (fs : TagFS) (parent : Nat) (name : String) : EntryReply :=
  match fs.get_inode parent with
  | some (.tag t) =>
    match fs.search_name t name with
    | some (.file f) => .entry TTL f.file_attr 0
    | some (.tag t2) => .entry TTL t2.dir_attr 0
    | none => .error ENOENT
  | _ => .error ENOENT

/-- `getattr` (mod.rs lines 314-324). -/
def TagFS.getattr (fs : TagFS) (ino : Nat) : AttrReply :=
  match fs.get_inode ino with
  | some (.file f) => .attr TTL f.file_attr
  | some (.tag t) => .attr TTL t.dir_attr
  | none => .error ENOENT

/-- `read` (mod.rs lines 326-368).  The backing file is `filenodes/<hash>`;
its on-disk bytes are supplied by `contents`.  `read_size` is
`min(size, file_size.saturating_sub(offset) as u32)` — `Nat` subtraction is
exactly `saturating_sub`, and the `as u32` cast is the `% 2^32`.  (For
`offset ≥ file_size` the buffer is empty and `read_exact_at` trivially
succeeds, which is the region the claims exercise.) -/
def TagFS.read (fs : TagFS) (contents : Hash256 → Option (List Nat))
    (ino : Nat) (offset : Nat) (size : Nat) : ReadReply :=
  match fs.get_inode ino with
  | some (.file f) =>
    match contents f.hash with
    | some c =>
      let file_size := c.length
      let read_size := min size ((file_size - offset) % 2^32)
      .data ((c.drop offset).take read_size)
    | none => .error ENOENT
  | some (.tag _) => .error EISDIR
  | none => .error ENOENT

/-- Loop body of `readdir` (mod.rs lines 383-410): `enumerate` counts every
iterated id, including ones skipped by the `continue`s, so the reported offset
of an emitted entry is `offset + index + 1` with `index` its position among
the iterated ids. -/
def TagFS.readdir_go (fs : TagFS) (offset : Nat) : List Uuid → Nat → List DirEntry
  | [], _ => []
  | id :: rest, index =>
    let tail := fs.readdir_go offset rest (index + 1)
    match fs.get_name_node id with
    | none => tail
    | some nn =>
      match fs.get_node nn.link with
      | none => tail
      | some (.file f) => ⟨f.file_attr.inode, offset + index + 1, f.file_attr.kind, nn.name⟩ :: tail
      | some (.tag t) => ⟨t.dir_attr.inode, offset + index + 1, t.dir_attr.kind, nn.name⟩ :: tail

/-- `readdir` (mod.rs lines 370-416): iterate the outgoing set starting at
`offset`; any inode that is not a `TagNode` replies `ENOENT`. -/
def TagFS.readdir (fs : TagFS) (ino : Nat) (offset : Nat) : ReaddirReply :=
  match fs.get_inode ino with
  | some (.tag t) => .ok (fs.readdir_go offset (t.dir_links.drop offset) 0)
  | _ => .error ENOENT

/-- `allocate_next_inode` (mod.rs lines 68-87).  `FileKind::Symlink` hits
`unimplemented!()`; it is unreachable from `create`/`mknod`, which only pass
`File` or `Directory`. -/
def TagFS.allocate_next_inode (fs : TagFS) (inode_kind : FileKind)
    (attr : Option InodeAttributes) (now : Int × Nat) (procUid procGid : Nat) :
    Option (INode × TagFS) :=
  match inode_kind with
  | .file =>
    let (ino, fs) := fs.get_inode_cur
    -- `FileNode::new` finalize-resets the running hasher
    some (.file (FileNode.new fs.hasher ino attr now procUid procGid), { fs with hasher := [] })
  | .directory =>
    let (ino, fs) := fs.get_inode_cur
    let (u, fs) := fs.freshUuid
    some (.tag (TagNode.new u ino attr now procUid procGid), fs)
  | .symlink => none

/-- Steps shared by `create` (mod.rs lines 459-489) and `mknod` (lines
563-593) once the parent is loaded and the mode accepted: allocate the new
node, give a fresh `TagNode` its `"."` and `".."` entries (their `NameNode`s
are added to `dir_links` only — the source never passes them to
`insert_name_node`), reload the parent, append the entry `NameNode`, write
the name-node records and the parent, then write the new node.  The two
`none` branches model paths on which the source panics (`unimplemented!()`
for a symlink kind, `unwrap()` on the parent reload); both are unreachable
from `create`/`mknod`, which reach this code only with a `File` or
`Directory` kind and after a successful parent load. -/
def TagFS.build_node (fs : TagFS) (parent : Nat) (name : String)
    (file_type : FileKind) (attrs : InodeAttributes) (now : Int × Nat)
    (procUid procGid : Nat) : Option (INode × TagFS) :=
  match fs.allocate_next_inode file_type (some attrs) now procUid procGid with
  | none => none
  | some (inode, fs) =>
    match fs.get_node_from_inode parent with
    | none => none
    | some parent_node =>
      let (inode, fs) :=
        match inode with
        | .tag t =>
          let (u1, fs) := fs.freshUuid
          let dot := NameNode.new u1 "." (.tag t.id)
          let (u2, fs) := fs.freshUuid
          let dotdot := NameNode.new u2 ".." parent_node
          (INode.tag ((t.add_file dot).add_file dotdot), fs)
        | .file f => (INode.file f, fs)
      let fs :=
        match fs.get_inode parent with
        | some (.tag t) =>
          let (u3, fs) := fs.freshUuid
          let name_node := NameNode.new u3 name inode.to_node
          let t := t.add_file name_node
          let fs := fs.insert_name_node name_node
          fs.insert_inode (.tag t)
        | _ => fs
      some (inode, fs.insert_inode inode)

/-- `create` (mod.rs lines 418-512).  The parent's attribute record is copied,
its mtime/ctime refreshed on the copy, and the copy is then dropped — exactly
as in the source, where `parent_attrs` is never written back.  The reply TTL
is `Duration::new(0, 0)`. -/
def TagFS.create (fs0 : TagFS) (requid reqgid : Nat) (parent : Nat) (name : String)
    (mode0 : Nat) (now : Int × Nat) : TagFS × CreateReply :=
  match fs0.get_inode parent with
  | none => (fs0, .error ENOENT)
  | some pnode =>
    let parent_attrs := match pnode with
      | .file f => f.file_attr
      | .tag t => t.dir_attr
    let _refreshed := { parent_attrs with last_modified := now, last_metadata_changed := now }
    let mode := if requid ≠ 0 then clear_suid_sgid mode0 else mode0
    let ft := mode &&& S_IFMT
    if ft = S_IFREG ∨ ft = S_IFDIR then
      let file_type := if ft = S_IFREG then FileKind.file else FileKind.directory
      let attrs : InodeAttributes :=
        { inode := 0
          open_file_handles := 1
          size := 0
          last_accessed := now
          last_modified := now
          last_metadata_changed := now
          kind := file_type
          mode := mode % 2^16
          hardlinks := 1
          uid := requid
          gid := reqgid }
      match fs0.build_node parent name file_type attrs now requid reqgid with
      | none => (fs0, .error ENOENT)
      | some (inode, fs) =>
        let (fh, fs) := fs.get_filehandle_cur
        match inode with
        | .file f => (fs, .created 0 f.file_attr 0 fh 0)
        | .tag t => (fs, .created 0 t.dir_attr 0 fh 0)
    else (fs0, .error ENOSYS)

/-- `mknod` (mod.rs lines 517-600): same construction as `create`, but the
mode's file-type bits are inspected before the parent is loaded, the new
record starts with `open_file_handles = 0`, and the reply is an entry with
TTL `Duration::new(0, 0)` and no file handle. -/
def TagFS.mknod (fs0 : TagFS) (requid reqgid : Nat) (parent : Nat) (name : String)
    (mode0 : Nat) (now : Int × Nat) : TagFS × EntryReply :=
  let ft0 := mode0 &&& S_IFMT
  if ft0 = S_IFREG ∨ ft0 = S_IFDIR then
    let file_type := if ft0 = S_IFREG then FileKind.file else FileKind.directory
    match fs0.get_inode parent with
    | none => (fs0, .error ENOENT)
    | some pnode =>
      let parent_attrs := match pnode with
        | .file f => f.file_attr
        | .tag t => t.dir_attr
      let _refreshed := { parent_attrs with last_modified := now, last_metadata_changed := now }
      let mode := if requid ≠ 0 then clear_suid_sgid mode0 else mode0
      let attrs : InodeAttributes :=
        { inode := 0
          open_file_handles := 0
          size := 0
          last_accessed := now
          last_modified := now
          last_metadata_changed := now
          kind := file_type
          mode := mode % 2^16
          hardlinks := 1
          uid := requid
          gid := reqgid }
      match fs0.build_node parent name file_type attrs now requid reqgid with
      | none => (fs0, .error ENOENT)
      | some (inode, fs) =>
        match inode with
        | .file f => (fs, .entry 0 f.file_attr 0)
        | .tag t => (fs, .entry 0 t.dir_attr 0)
  else (fs0, .error ENOSYS)

/-! ### Observation helpers and demonstration states -/

/-- Shorthand for the two loads performed per id inside the `readdir` loop:
the `NameNode` record and the resolved target. -/
def resolveId (fs : TagFS) (id : Uuid) : Option (NameNode × INode) :=
  match fs.get_name_node id with
  | none => none
  | some nn =>
    match fs.get_node nn.link with
    | none => none
    | some node => some (nn, node)

/-- The entry `readdir` emits for a resolved id at reported offset `off`. -/
def entryOf (nn : NameNode) (node : INode) (off : Nat) : DirEntry :=
  match node with
  | .file f => ⟨f.file_attr.inode, off, f.file_attr.kind, nn.name⟩
  | .tag t => ⟨t.dir_attr.inode, off, t.dir_attr.kind, nn.name⟩

/-- Reformulation of the `readdir` loop with a single running counter
(`off = offset + index`), proved equal to `readdir_go` below and used to
reason about the emitted entries. -/
def emitAll (fs : TagFS) : List Uuid → Nat → List DirEntry
  | [], _ => []
  | id :: rest, off =>
    match resolveId fs id with
    | none => emitAll fs rest (off + 1)
    | some (nn, node) => entryOf nn node (off + 1) :: emitAll fs rest (off + 1)

/-- Outgoing set of the `TagNode` stored at an inode number, if any. -/
def dirLinksAt (fs : TagFS) (ino : Nat) : Option (List Uuid) :=
  match fs.get_inode ino with
  | some (.tag t) => some t.dir_links
  | _ => none

/-- Stored (mtime, ctime) of the node at an inode number, if any. -/
def mtimeCtimeAt (fs : TagFS) (ino : Nat) : Option ((Int × Nat) × (Int × Nat)) :=
  match fs.get_inode ino with
  | some (.tag t) => some (t.dir_attr.last_modified, t.dir_attr.last_metadata_changed)
  | some (.file f) => some (f.file_attr.last_modified, f.file_attr.last_metadata_changed)
  | none => none

/-- Low nine permission bits of a `getattr` reply, if it carries attributes. -/
def AttrReply.modeLowNine : AttrReply → Option Nat
  | .attr _ a => some (a.mode % 0o1000)
  | .error _ => none

/-- Fresh mount at wall-clock time 0 with process uid/gid 0:
`TagFS::new()` followed by `init`. -/
def demoFS : TagFS := TagFS.new.init (0, 0) 0 0

/-- The root `TagNode` record `demoFS` stores at inode 1. -/
def demoRootTag : TagNode :=
  { id := 0
    dir_attr := new_file_attr (0, 0) 0 0 1 .directory 0o644
    back_links := []
    dir_links := [1] }

/-- The seeded `FileNode` record `demoFS` stores at inode 2. -/
def demoFile : FileNode := FileNode.new [] 2 none (0, 0) 0 0

/-- Entries `readdir(1, 0)` emits on `demoFS`. -/
def demoEntries : List DirEntry := [⟨2, 1, .file, "file1"⟩]

/-- `demoFS` after `mknod(parent=1, name="d", mode=0o040755)` from uid 1000 at
time 1. -/
def demoMk : TagFS := (demoFS.mknod 1000 1000 1 "d" 0o040755 (1, 0)).1

/-- `demoFS` after a re-mount (new process over the surviving store) and a
second `init` at time 5. -/
def demoRemountInit : TagFS := demoFS.remount.init (5, 0) 0 0

/-- `demoFS` after `create(parent=1, name="x", mode=0o100644)` from uid 1000
at time 5. -/
def demoCreate : TagFS × CreateReply := demoFS.create 1000 1000 1 "x" 0o100644 (5, 0)

/-! ### Store lemmas -/

/-- Reading back an association-list upsert. -/
theorem lookupA_insertA {α β : Type} [DecidableEq α] (key : α) (val : β)
    (m : List (α × β)) (j : α) :
    lookupA (insertA key val m) j = if j = key then some val else lookupA m j := by
  induction m with
  | nil => simp [insertA, lookupA]
  | cons kv rest ih =>
    obtain ⟨k, v⟩ := kv
    by_cases hk : key = k
    · subst hk
      by_cases hj : j = key <;> simp_all [insertA, lookupA]
    · have hk2 : ¬k = key := fun h => hk h.symm
      by_cases hj : j = k <;> simp_all [insertA, lookupA]

/-- The inserted element is a member of the sorted-set insertion. -/
theorem mem_insertSorted_self (x : Uuid) (l : List Uuid) : x ∈ insertSorted x l := by
  induction l with
  | nil => simp [insertSorted]
  | cons y ys ih =>
    by_cases h1 : x < y
    · simp [insertSorted, h1]
    · by_cases h2 : x = y
      · simp [insertSorted, h1, h2]
      · simp only [insertSorted, if_neg h1, if_neg h2]
        exact List.mem_cons_of_mem y ih

/-- Sorted-set insertion preserves existing members. -/
theorem mem_insertSorted_of_mem (x : Uuid) {y : Uuid} {l : List Uuid} (h : y ∈ l) :
    y ∈ insertSorted x l := by
  induction l with
  | nil => cases h
  | cons z zs ih =>
    by_cases h1 : x < z
    · simp only [insertSorted, if_pos h1]
      exact List.mem_cons_of_mem x h
    · by_cases h2 : x = z
      · simpa [insertSorted, h1, h2] using h
      · simp only [insertSorted, if_neg h1, if_neg h2]
        rcases List.mem_cons.mp h with h3 | h3
        · exact h3 ▸ List.mem_cons_self z _
        · exact List.mem_cons_of_mem z (ih h3)

/-- Clearing the setuid/setgid bits leaves the file-type bits untouched. -/
theorem clear_suid_sgid_land_ifmt (mode : Nat) :
    clear_suid_sgid mode &&& S_IFMT = mode &&& S_IFMT := by
  unfold clear_suid_sgid S_IFMT
  rw [Nat.land_assoc]
  congr 1

/-! ### C9: time round-trip -/

/-- C9: for every pair `(secs, nsecs)` with `|secs| < 2^62` and
`nsecs < 10^9`, converting to a wall-clock instant with
`system_time_from_time` (which subtracts from the epoch when `secs` is
negative) and converting back with `time_from_system_time` yields the
original pair. -/
theorem time_round_trip (secs : Int) (nsecs : Nat)
    (h1 : secs.natAbs < 2^62) (h2 : nsecs < 1000000000) :
    time_from_system_time (system_time_from_time secs nsecs) = (secs, nsecs) := by
  unfold system_time_from_time time_from_system_time toI64
  split_ifs with hs ht hc ht hc <;>
    simp only [Prod.mk.injEq] <;> constructor <;> omega

/-- Witness for C9 at the concrete pre-epoch pair `(-5, 3)`. -/
theorem time_round_trip_witness :
    time_from_system_time (system_time_from_time (-5) 3) = (-5, 3) :=
  time_round_trip (-5) 3 (by decide) (by decide)

/-! ### C7: read at or past end of file -/

/-- C7: a `read` on an existing `FileNode` whose backing file has length `L`
replies with empty data — not an error — whenever `offset = L` or
`offset > L`: the read size is `min(size, L - offset)` where the subtraction
saturates at zero (`u64::saturating_sub`, mirrored by `Nat` subtraction), so
no underflow occurs. -/
theorem read_at_or_past_eof (fs : TagFS) (contents : Hash256 → Option (List Nat))
    (ino offset size : Nat) (f : FileNode) (c : List Nat)
    (hf : fs.get_inode ino = some (.file f))
    (hc : contents f.hash = some c)
    (hoff : c.length ≤ offset) :
    fs.read contents ino offset size = .data [] := by
  simp only [TagFS.read, hf, hc]
  have hz : c.length - offset = 0 := Nat.sub_eq_zero_of_le hoff
  simp [hz]

/-- Witness for C7: on the fresh mount, reading the file at inode 2 with a
3-byte backing file at offsets 3 (equal to the length) and 7 (past it). -/
theorem read_at_or_past_eof_witness :
    demoFS.read (fun _ => some [10, 11, 12]) 2 3 4096 = .data [] ∧
    demoFS.read (fun _ => some [10, 11, 12]) 2 7 4096 = .data [] :=
  ⟨read_at_or_past_eof demoFS _ 2 3 4096 demoFile [10, 11, 12] (by decide) rfl (by decide),
   read_at_or_past_eof demoFS _ 2 7 4096 demoFile [10, 11, 12] (by decide) rfl (by decide)⟩

/-! ### C2: getattr on the root of a fresh mount -/

/-- Counterexample to C2: on a fresh mount `getattr(1)` does reply attributes
for inode 1 with kind Directory and TTL 1 s, but the mode's low nine bits are
0o644 (`TagNode::new` passes `0o644` to `new_file_attr`), not 0o755. -/
theorem getattr_root_mode_not_0o755 :
    demoFS.getattr 1 = .attr 1 (new_file_attr (0, 0) 0 0 1 .directory 0o644) ∧
    (demoFS.getattr 1).modeLowNine = some 0o644 ∧
    (demoFS.getattr 1).modeLowNine ≠ some 0o755 := by decide

/-- C2 as amended: on a fresh mount — for any wall-clock time and process
uid/gid — `getattr(1)` replies kind Directory, mode with low nine bits 0o644,
inode 1, TTL 1 second. -/
theorem getattr_root_after_init (now : Int × Nat) (procUid procGid : Nat) :
    (TagFS.new.init now procUid procGid).getattr 1 =
      .attr TTL (new_file_attr now procUid procGid 1 .directory 0o644) ∧
    (new_file_attr now procUid procGid 1 .directory 0o644).kind = .directory ∧
    (new_file_attr now procUid procGid 1 .directory 0o644).mode % 0o1000 = 0o644 ∧
    (new_file_attr now procUid procGid 1 .directory 0o644).inode = 1 ∧
    TTL = 1 :=
  ⟨rfl, rfl, rfl, rfl, rfl⟩

/-! ### C3: lookup/readdir whose parent is a FileNode -/

/-- Counterexample to C3: inode 2 of the fresh mount is a `FileNode`, yet
`lookup(2, ·)` and `readdir(2, 0)` reply errno 2 (`ENOENT`), not errno 20
(`ENOTDIR`): neither callback ever produces `ENOTDIR`. -/
theorem lookup_readdir_file_parent_enoent_cex :
    demoFS.lookup 2 "file1" = .error ENOENT ∧
    demoFS.readdir 2 0 = .error ENOENT ∧
    ENOENT ≠ ENOTDIR := by decide

/-- C3 as amended: whenever the parent inode exists and resolves to a
`FileNode`, both `lookup` and `readdir` reply the `NOT_FOUND` error
(`ENOENT`) — the code has no `ENOTDIR` path. -/
theorem lookup_readdir_file_parent_enoent (fs : TagFS) (ino : Nat) (f : FileNode)
    (name : String) (offset : Nat)
    (h : fs.get_inode ino = some (.file f)) :
    fs.lookup ino name = .error ENOENT ∧ fs.readdir ino offset = .error ENOENT := by
  constructor <;> simp [TagFS.lookup, TagFS.readdir, h]

/-- Witness for the amended C3 at inode 2 of the fresh mount. -/
theorem lookup_readdir_file_parent_enoent_witness :
    demoFS.lookup 2 "absent" = .error ENOENT ∧ demoFS.readdir 2 5 = .error ENOENT :=
  lookup_readdir_file_parent_enoent demoFS 2 demoFile "absent" 5 (by decide)

/-! ### C4: serialise-then-deserialise of a Hash256 -/

/-- C4 fails on the code: serialising the all-zero digest writes an 8-byte
length prefix (64) followed by 64 ASCII `0` characters, and the derived
deserialiser then reads back 32 raw bytes — the length prefix plus 24 hex
characters — with 40 bytes left over, so the round trip does not return the
original 32-byte digest. -/
theorem hash256_serde_mismatch :
    deserialize_hash256 (serialize_hash256 zeroDigest) =
      some (u64le 64 ++ List.replicate 24 48, List.replicate 40 48) ∧
    deserialize_hash256 (serialize_hash256 zeroDigest) ≠ some (zeroDigest, []) := by decide

/-! ### C5: idempotence of init -/

/-- Counterexample to C5: after a fresh mount (`demoFS`, root tag id 0, seed
set `[1]` under name `file1`), re-mounting and running `init` again re-points
inode 1 at a brand-new root TagNode (id 2) and inserts a second seed id, so
the existing root is not kept and a new seed entry is added. -/
theorem init_not_idempotent_cex :
    lookupA demoFS.store.inodes 1 = some (.toTag 0) ∧
    lookupA demoRemountInit.store.inodes 1 = some (.toTag 2) ∧
    demoRemountInit.get_inode 1 ≠ demoFS.get_inode 1 ∧
    lookupA demoFS.store.namenodes "file1" = some [1] ∧
    lookupA demoRemountInit.store.namenodes "file1" = some [1, 3] := by decide

/-- C5 as amended: `init` is not idempotent — run against any store (fresh or
already initialised), it stores a brand-new root TagNode at inode 1 (fresh
surrogate id, its only entry the fresh seed NameNode) and inserts a fresh
seed id into the set under the `file1` name key every time, so a second init
replaces the root mapping and adds a new seed entry. -/
theorem init_always_replaces_root_and_reseeds (fs : TagFS) (now : Int × Nat)
    (procUid procGid : Nat) :
    (fs.remount.init now procUid procGid).get_inode 1 =
      some (.tag ((TagNode.new fs.uuid_cur 1 none now procUid procGid).add_file
        (NameNode.new (fs.uuid_cur + 1) "file1" (.file (calculate_hash []))))) ∧
    lookupA (fs.remount.init now procUid procGid).store.namenodes "file1" =
      some (insertSorted (fs.uuid_cur + 1)
        ((lookupA fs.store.namenodes "file1").getD [])) := by
  constructor
  · unfold TagFS.init TagFS.remount TagFS.new
    simp [TagFS.get_inode_cur, TagFS.freshUuid, TagFS.insert_inode, TagFS.insert_name_node,
      TagFS.write_file_node, TagFS.write_tag_node, rewrite_symlink, TagFS.get_inode,
      TagNode.new, TagNode.add_file, NameNode.new, FileNode.new, new_file_attr,
      calculate_hash, lookupA_insertA]
  · unfold TagFS.init TagFS.remount TagFS.new
    cases h : lookupA fs.store.namenodes "file1" <;>
      simp [TagFS.get_inode_cur, TagFS.freshUuid, TagFS.insert_inode, TagFS.insert_name_node,
        TagFS.write_file_node, TagFS.write_tag_node, rewrite_symlink,
        NameNode.new, FileNode.new, calculate_hash, lookupA_insertA, h]

/-! ### C6: parent time refresh on create -/

/-- C6 fails on the code: `create` refreshes mtime/ctime only on a local copy
of the parent's attributes, then re-reads the parent from the store and
re-writes that re-read record, so the stored parent keeps its old times.
Concretely: store initialised at time 0, `create(1, "x", 0o100644)` at time 5
succeeds, yet the stored root still carries mtime = ctime = (0, 0). -/
theorem create_drops_parent_time_refresh :
    (demoCreate.2 = .created 0
      { inode := 3, open_file_handles := 1, size := 0, last_accessed := (5, 0),
        last_modified := (5, 0), last_metadata_changed := (5, 0), kind := .file,
        mode := 0o100644, hardlinks := 1, uid := 1000, gid := 1000 } 0 1 0) ∧
    mtimeCtimeAt demoCreate.1 1 = some ((0, 0), (0, 0)) ∧
    (((0 : Int), (0 : Nat)) ≠ ((5 : Int), (0 : Nat))) := by decide

/-! ### C8: readdir offsets and resumption -/

/-- The readdir loop equals its single-counter reformulation. -/
theorem readdir_go_eq_emitAll (fs : TagFS) :
    ∀ (ids : List Uuid) (o idx : Nat), fs.readdir_go o ids idx = emitAll fs ids (o + idx)
  | [], _, _ => rfl
  | id :: rest, o, idx => by
    have ih := readdir_go_eq_emitAll fs rest o (idx + 1)
    rw [← Nat.add_assoc] at ih
    simp only [TagFS.readdir_go, emitAll, resolveId]
    cases h1 : fs.get_name_node id with
    | none => simpa using ih
    | some nn =>
      cases h2 : fs.get_node nn.link with
      | none => simpa [h2] using ih
      | some node =>
        cases node with
        | file f => simp [h2, entryOf, ih]
        | tag t => simp [h2, entryOf, ih]

/-- When every id resolves, the loop emits one entry per id. -/
theorem emitAll_length (fs : TagFS) :
    ∀ (ids : List Uuid) (off : Nat),
      (∀ id ∈ ids, (resolveId fs id).isSome) →
      (emitAll fs ids off).length = ids.length
  | [], _, _ => rfl
  | id :: rest, off, hres => by
    have hid : (resolveId fs id).isSome := hres id (List.mem_cons_self id rest)
    have ih := emitAll_length fs rest (off + 1)
      (fun i hi => hres i (List.mem_cons_of_mem id hi))
    cases h : resolveId fs id with
    | none => rw [h] at hid; cases hid
    | some p =>
      obtain ⟨nn, node⟩ := p
      simp [emitAll, h, ih]

/-- When every id resolves, the `j`-th emitted entry reports offset
`off + j + 1`. -/
theorem emitAll_get?_off (fs : TagFS) :
    ∀ (ids : List Uuid) (off j : Nat),
      (∀ id ∈ ids, (resolveId fs id).isSome) →
      j < ids.length →
      ((emitAll fs ids off).get? j).map DirEntry.off = some (off + j + 1)
  | [], _, j, _, hj => by cases hj
  | id :: rest, off, j, hres, hj => by
    have hid : (resolveId fs id).isSome := hres id (List.mem_cons_self id rest)
    have hres' : ∀ i ∈ rest, (resolveId fs i).isSome :=
      fun i hi => hres i (List.mem_cons_of_mem id hi)
    cases h : resolveId fs id with
    | none => rw [h] at hid; cases hid
    | some p =>
      obtain ⟨nn, node⟩ := p
      have he : emitAll fs (id :: rest) off =
          entryOf nn node (off + 1) :: emitAll fs rest (off + 1) := by
        simp [emitAll, h]
      rw [he]
      cases j with
      | zero => cases node <;> simp [entryOf]
      | succ j' =>
        have ih := emitAll_get?_off fs rest (off + 1) j' hres' (by simpa using hj)
        simpa [Nat.add_assoc, Nat.add_comm, Nat.add_left_comm] using ih

/-- When every id resolves, dropping `k` emitted entries is the same as
starting the loop `k` ids later. -/
theorem emitAll_drop (fs : TagFS) :
    ∀ (ids : List Uuid) (off k : Nat),
      (∀ id ∈ ids, (resolveId fs id).isSome) →
      (emitAll fs ids off).drop k = emitAll fs (ids.drop k) (off + k)
  | _, _, 0, _ => by simp
  | [], _, _ + 1, _ => by simp [emitAll]
  | id :: rest, off, k + 1, hres => by
    have hid : (resolveId fs id).isSome := hres id (List.mem_cons_self id rest)
    have hres' : ∀ i ∈ rest, (resolveId fs i).isSome :=
      fun i hi => hres i (List.mem_cons_of_mem id hi)
    cases h : resolveId fs id with
    | none => rw [h] at hid; cases hid
    | some p =>
      obtain ⟨nn, node⟩ := p
      have he : emitAll fs (id :: rest) off =
          entryOf nn node (off + 1) :: emitAll fs rest (off + 1) := by
        simp [emitAll, h]
      rw [he, List.drop_succ_cons, emitAll_drop fs rest (off + 1) k hres',
        List.drop_succ_cons]
      congr 1
      omega

/-- C8: on a `readdir(ino, offset)` of a TagNode whose outgoing entries all
resolve, the `i`-th emitted entry (counting from 0) reports offset
`offset + i + 1`, and a `readdir` restarted at that reported offset emits
exactly the entries that follow it, in the same iteration order. -/
theorem readdir_offsets_and_resume (fs : TagFS) (ino : Nat) (t : TagNode)
    (offset i : Nat) (es : List DirEntry)
    (ht : fs.get_inode ino = some (.tag t))
    (hres : ∀ id ∈ t.dir_links, (resolveId fs id).isSome)
    (hes : fs.readdir ino offset = .ok es)
    (hi : i < es.length) :
    (es.get ⟨i, hi⟩).off = offset + i + 1 ∧
    fs.readdir ino (offset + i + 1) = .ok (es.drop (i + 1)) := by
  have hres' : ∀ id ∈ t.dir_links.drop offset, (resolveId fs id).isSome :=
    fun id hid => hres id (List.mem_of_mem_drop hid)
  have hgo : fs.readdir ino offset = .ok (emitAll fs (t.dir_links.drop offset) offset) := by
    simp [TagFS.readdir, ht, readdir_go_eq_emitAll]
  rw [hgo] at hes
  cases hes
  have hlen : (emitAll fs (t.dir_links.drop offset) offset).length =
      (t.dir_links.drop offset).length := emitAll_length fs _ offset hres'
  constructor
  · have h1 := emitAll_get?_off fs (t.dir_links.drop offset) offset i hres'
      (by rw [← hlen]; exact hi)
    rw [List.get?_eq_get hi] at h1
    simpa using h1
  · have h2 : fs.readdir ino (offset + i + 1) =
        .ok (emitAll fs (t.dir_links.drop (offset + i + 1)) (offset + i + 1)) := by
      simp [TagFS.readdir, ht, readdir_go_eq_emitAll]
    rw [h2, emitAll_drop fs _ offset (i + 1) hres', List.drop_drop]
    congr 2

/-- Witness for C8 on the fresh mount: the single root entry reports offset
`0 + 0 + 1 = 1`, and a readdir resumed at offset 1 emits nothing. -/
theorem readdir_offsets_and_resume_witness :
    (demoEntries.get ⟨0, by decide⟩).off = 0 + 0 + 1 ∧
    demoFS.readdir 1 (0 + 0 + 1) = .ok (demoEntries.drop (0 + 1)) :=
  readdir_offsets_and_resume demoFS 1 demoRootTag 0 0 demoEntries (by decide) (by decide)
    (by decide) (by decide)

/-! ### C10: create/mknod never report an existing name -/

/-- Explicit result of the shared `create`/`mknod` construction for a regular
file when the parent's inode symlink and tag record are consistent: the new
`FileNode`, the entry `NameNode` under a fresh id appended to the parent's
outgoing set and to the set under the name key, and the rewritten records. -/
theorem build_node_file_eq (fs : TagFS) (parent : Nat) (name : String)
    (attrs : InodeAttributes) (now : Int × Nat) (ruid rgid : Nat) (t : TagNode)
    (ht1 : lookupA fs.store.inodes parent = some (.toTag t.id))
    (ht2 : lookupA fs.store.tagnodes t.id = some t) :
    fs.build_node parent name .file attrs now ruid rgid =
      some (.file ⟨calculate_hash fs.hasher, { attrs with inode := fs.inode_cur }, []⟩,
        { hasher := []
          store :=
            { filenodes := insertA (calculate_hash fs.hasher)
                ⟨calculate_hash fs.hasher, { attrs with inode := fs.inode_cur }, []⟩
                fs.store.filenodes
              tagnodes := insertA t.id
                (t.add_file (NameNode.new fs.uuid_cur name (.file (calculate_hash fs.hasher))))
                fs.store.tagnodes
              namenodes := insertA name
                (insertSorted fs.uuid_cur ((lookupA fs.store.namenodes name).getD []))
                fs.store.namenodes
              namenodes_id := insertA fs.uuid_cur
                (NameNode.new fs.uuid_cur name (.file (calculate_hash fs.hasher)))
                fs.store.namenodes_id
              inodes := insertA fs.inode_cur (.toFile (calculate_hash fs.hasher))
                (insertA t.dir_attr.inode (.toTag t.id) fs.store.inodes) }
          inode_cur := fs.inode_cur + 1
          filehandle_cur := fs.filehandle_cur
          uuid_cur := fs.uuid_cur + 1 }) := by
  cases h : lookupA fs.store.namenodes name <;>
    simp [TagFS.build_node, TagFS.allocate_next_inode, TagFS.get_inode_cur, TagFS.freshUuid,
      TagFS.get_node_from_inode, TagFS.get_inode, TagFS.insert_name_node, TagFS.insert_inode,
      TagFS.write_file_node, TagFS.write_tag_node, rewrite_symlink, FileNode.new,
      NameNode.new, INode.to_node, TagNode.add_file, calculate_hash, ht1, ht2, h]

/-- Full result of `mknod` for a regular-file mode on a consistent tag
parent: the new `FileNode`, the entry `NameNode` under the fresh id, the
rewritten records, and the `entry` reply with TTL 0. -/
theorem mknod_file_after (fs : TagFS) (requid reqgid parent : Nat) (name : String)
    (mode : Nat) (now : Int × Nat) (t : TagNode)
    (ht1 : lookupA fs.store.inodes parent = some (.toTag t.id))
    (ht2 : lookupA fs.store.tagnodes t.id = some t)
    (hmode : mode &&& S_IFMT = S_IFREG) :
    fs.mknod requid reqgid parent name mode now =
      ({ hasher := []
         store :=
           { filenodes := insertA (calculate_hash fs.hasher)
               ⟨calculate_hash fs.hasher,
                { inode := fs.inode_cur, open_file_handles := 0, size := 0,
                  last_accessed := now, last_modified := now, last_metadata_changed := now,
                  kind := .file,
                  mode := (if requid ≠ 0 then clear_suid_sgid mode else mode) % 2^16,
                  hardlinks := 1, uid := requid, gid := reqgid }, []⟩
               fs.store.filenodes
             tagnodes := insertA t.id
               (t.add_file (NameNode.new fs.uuid_cur name (.file (calculate_hash fs.hasher))))
               fs.store.tagnodes
             namenodes := insertA name
               (insertSorted fs.uuid_cur ((lookupA fs.store.namenodes name).getD []))
               fs.store.namenodes
             namenodes_id := insertA fs.uuid_cur
               (NameNode.new fs.uuid_cur name (.file (calculate_hash fs.hasher)))
               fs.store.namenodes_id
             inodes := insertA fs.inode_cur (.toFile (calculate_hash fs.hasher))
               (insertA t.dir_attr.inode (.toTag t.id) fs.store.inodes) }
         inode_cur := fs.inode_cur + 1
         filehandle_cur := fs.filehandle_cur
         uuid_cur := fs.uuid_cur + 1 },
       .entry 0
         { inode := fs.inode_cur, open_file_handles := 0, size := 0,
           last_accessed := now, last_modified := now, last_metadata_changed := now,
           kind := .file,
           mode := (if requid ≠ 0 then clear_suid_sgid mode else mode) % 2^16,
           hardlinks := 1, uid := requid, gid := reqgid } 0) := by
  have hg : fs.get_inode parent = some (.tag t) := by
    simp [TagFS.get_inode, ht1, ht2]
  simp only [TagFS.mknod, hmode, hg, eq_self_iff_true, true_or, if_true]
  rw [build_node_file_eq fs parent name _ now requid reqgid t ht1 ht2]

/-- Full result of `create` for a regular-file mode on a consistent tag
parent: as for `mknod`, with `open_file_handles = 1` and a `created` reply
carrying the allocated file handle. -/
theorem create_file_after (fs : TagFS) (requid reqgid parent : Nat) (name : String)
    (mode : Nat) (now : Int × Nat) (t : TagNode)
    (ht1 : lookupA fs.store.inodes parent = some (.toTag t.id))
    (ht2 : lookupA fs.store.tagnodes t.id = some t)
    (hmode : mode &&& S_IFMT = S_IFREG) :
    fs.create requid reqgid parent name mode now =
      ({ hasher := []
         store :=
           { filenodes := insertA (calculate_hash fs.hasher)
               ⟨calculate_hash fs.hasher,
                { inode := fs.inode_cur, open_file_handles := 1, size := 0,
                  last_accessed := now, last_modified := now, last_metadata_changed := now,
                  kind := .file,
                  mode := (if requid ≠ 0 then clear_suid_sgid mode else mode) % 2^16,
                  hardlinks := 1, uid := requid, gid := reqgid }, []⟩
               fs.store.filenodes
             tagnodes := insertA t.id
               (t.add_file (NameNode.new fs.uuid_cur name (.file (calculate_hash fs.hasher))))
               fs.store.tagnodes
             namenodes := insertA name
               (insertSorted fs.uuid_cur ((lookupA fs.store.namenodes name).getD []))
               fs.store.namenodes
             namenodes_id := insertA fs.uuid_cur
               (NameNode.new fs.uuid_cur name (.file (calculate_hash fs.hasher)))
               fs.store.namenodes_id
             inodes := insertA fs.inode_cur (.toFile (calculate_hash fs.hasher))
               (insertA t.dir_attr.inode (.toTag t.id) fs.store.inodes) }
         inode_cur := fs.inode_cur + 1
         filehandle_cur := fs.filehandle_cur + 1
         uuid_cur := fs.uuid_cur + 1 },
       .created 0
         { inode := fs.inode_cur, open_file_handles := 1, size := 0,
           last_accessed := now, last_modified := now, last_metadata_changed := now,
           kind := .file,
           mode := (if requid ≠ 0 then clear_suid_sgid mode else mode) % 2^16,
           hardlinks := 1, uid := requid, gid := reqgid } 0 fs.filehandle_cur 0) := by
  have hg : fs.get_inode parent = some (.tag t) := by
    simp [TagFS.get_inode, ht1, ht2]
  have hft : (if requid ≠ 0 then clear_suid_sgid mode else mode) &&& S_IFMT = S_IFREG := by
    by_cases h : requid ≠ 0 <;> simp [h, clear_suid_sgid_land_ifmt, hmode]
  simp only [TagFS.create, hft, hg, eq_self_iff_true, true_or, if_true]
  rw [build_node_file_eq fs parent name _ now requid reqgid t ht1 ht2]
  simp [TagFS.get_filehandle_cur]


/-- Component-level consequences of one regular-file `mknod`: it succeeds and
upserts the file record, the entry `NameNode` under the fresh id, the name
set, the parent tag record, and the symlinks. -/
theorem mknod_file_step (fs : TagFS) (requid reqgid parent : Nat) (name : String)
    (mode : Nat) (now : Int × Nat) (t : TagNode)
    (ht1 : lookupA fs.store.inodes parent = some (.toTag t.id))
    (ht2 : lookupA fs.store.tagnodes t.id = some t)
    (hmode : mode &&& S_IFMT = S_IFREG) :
    ∃ fs1 a1, fs.mknod requid reqgid parent name mode now = (fs1, .entry 0 a1 0) ∧
      fs1.hasher = [] ∧
      fs1.inode_cur = fs.inode_cur + 1 ∧
      fs1.uuid_cur = fs.uuid_cur + 1 ∧
      fs1.store.tagnodes =
        insertA t.id (t.add_file (NameNode.new fs.uuid_cur name
          (.file (calculate_hash fs.hasher)))) fs.store.tagnodes ∧
      fs1.store.namenodes =
        insertA name (insertSorted fs.uuid_cur ((lookupA fs.store.namenodes name).getD []))
          fs.store.namenodes ∧
      fs1.store.namenodes_id =
        insertA fs.uuid_cur (NameNode.new fs.uuid_cur name (.file (calculate_hash fs.hasher)))
          fs.store.namenodes_id ∧
      fs1.store.inodes =
        insertA fs.inode_cur (.toFile (calculate_hash fs.hasher))
          (insertA t.dir_attr.inode (.toTag t.id) fs.store.inodes) :=
  ⟨_, _, mknod_file_after fs requid reqgid parent name mode now t ht1 ht2 hmode,
    rfl, rfl, rfl, rfl, rfl, rfl, rfl⟩

/-- Component-level consequences of one regular-file `create`, mirror of
`mknod_file_step`. -/
theorem create_file_step (fs : TagFS) (requid reqgid parent : Nat) (name : String)
    (mode : Nat) (now : Int × Nat) (t : TagNode)
    (ht1 : lookupA fs.store.inodes parent = some (.toTag t.id))
    (ht2 : lookupA fs.store.tagnodes t.id = some t)
    (hmode : mode &&& S_IFMT = S_IFREG) :
    ∃ fs1 a1 fh1, fs.create requid reqgid parent name mode now = (fs1, .created 0 a1 0 fh1 0) ∧
      fs1.hasher = [] ∧
      fs1.inode_cur = fs.inode_cur + 1 ∧
      fs1.uuid_cur = fs.uuid_cur + 1 ∧
      fs1.store.tagnodes =
        insertA t.id (t.add_file (NameNode.new fs.uuid_cur name
          (.file (calculate_hash fs.hasher)))) fs.store.tagnodes ∧
      fs1.store.namenodes =
        insertA name (insertSorted fs.uuid_cur ((lookupA fs.store.namenodes name).getD []))
          fs.store.namenodes ∧
      fs1.store.namenodes_id =
        insertA fs.uuid_cur (NameNode.new fs.uuid_cur name (.file (calculate_hash fs.hasher)))
          fs.store.namenodes_id ∧
      fs1.store.inodes =
        insertA fs.inode_cur (.toFile (calculate_hash fs.hasher))
          (insertA t.dir_attr.inode (.toTag t.id) fs.store.inodes) :=
  ⟨_, _, _, create_file_after fs requid reqgid parent name mode now t ht1 ht2 hmode,
    rfl, rfl, rfl, rfl, rfl, rfl, rfl⟩

/-- Two consecutive `mknod` calls with the same parent and name both succeed
and leave two distinct same-named `NameNode`s, both ids in the parent's
outgoing set and in the set under the name key. -/
theorem mknod_twice (fs : TagFS) (requid reqgid parent : Nat)
    (name : String) (mode : Nat) (now1 now2 : Int × Nat) (t : TagNode)
    (ht1 : lookupA fs.store.inodes parent = some (.toTag t.id))
    (ht2 : lookupA fs.store.tagnodes t.id = some t)
    (hmode : mode &&& S_IFMT = S_IFREG)
    (hp1 : parent ≠ fs.inode_cur) (hp2 : parent ≠ fs.inode_cur + 1) :
    (∃ a1, (fs.mknod requid reqgid parent name mode now1).2 = .entry 0 a1 0) ∧
    (∃ a2, ((fs.mknod requid reqgid parent name mode now1).1.mknod
        requid reqgid parent name mode now2).2 = .entry 0 a2 0) ∧
    fs.uuid_cur ≠ fs.uuid_cur + 1 ∧
    (∃ n1 n2,
      ((fs.mknod requid reqgid parent name mode now1).1.mknod
          requid reqgid parent name mode now2).1.get_name_node fs.uuid_cur = some n1 ∧
      ((fs.mknod requid reqgid parent name mode now1).1.mknod
          requid reqgid parent name mode now2).1.get_name_node (fs.uuid_cur + 1) = some n2 ∧
      n1.name = name ∧ n2.name = name) ∧
    (∃ t2,
      ((fs.mknod requid reqgid parent name mode now1).1.mknod
          requid reqgid parent name mode now2).1.get_inode parent = some (.tag t2) ∧
      fs.uuid_cur ∈ t2.dir_links ∧ fs.uuid_cur + 1 ∈ t2.dir_links) ∧
    (∃ s,
      lookupA ((fs.mknod requid reqgid parent name mode now1).1.mknod
          requid reqgid parent name mode now2).1.store.namenodes name = some s ∧
      fs.uuid_cur ∈ s ∧ fs.uuid_cur + 1 ∈ s) := by
  obtain ⟨fsA, a1, e1, hhA, hicA, hucA, htgA, hnmA, hniA, hinA⟩ :=
    mknod_file_step fs requid reqgid parent name mode now1 t ht1 ht2 hmode
  have ht1A : lookupA fsA.store.inodes parent = some (.toTag t.id) := by
    rw [hinA, lookupA_insertA, if_neg hp1, lookupA_insertA]
    by_cases hpd : parent = t.dir_attr.inode
    · simp [hpd]
    · simp [hpd, ht1]
  have ht2A : lookupA fsA.store.tagnodes t.id =
      some (t.add_file (NameNode.new fs.uuid_cur name (.file (calculate_hash fs.hasher)))) := by
    rw [htgA, lookupA_insertA]
    simp [TagNode.add_file]
  obtain ⟨fsB, a2, e2, hhB, hicB, hucB, htgB, hnmB, hniB, hinB⟩ :=
    mknod_file_step fsA requid reqgid parent name mode now2
      (t.add_file (NameNode.new fs.uuid_cur name (.file (calculate_hash fs.hasher))))
      ht1A ht2A hmode
  rw [hucA] at htgB hnmB hniB
  rw [hhA] at htgB hniB
  rw [hicA, hhA] at hinB
  have hneU : ¬ (fs.uuid_cur = fs.uuid_cur + 1) := by omega
  have hn1 : lookupA fsB.store.namenodes_id fs.uuid_cur =
      some (NameNode.new fs.uuid_cur name (.file (calculate_hash fs.hasher))) := by
    rw [hniB, hniA, lookupA_insertA, if_neg hneU, lookupA_insertA]
    simp
  have hn2 : lookupA fsB.store.namenodes_id (fs.uuid_cur + 1) =
      some (NameNode.new (fs.uuid_cur + 1) name (.file (calculate_hash []))) := by
    rw [hniB, lookupA_insertA]
    simp
  have hBtg : lookupA fsB.store.tagnodes t.id =
      some ((t.add_file (NameNode.new fs.uuid_cur name
          (.file (calculate_hash fs.hasher)))).add_file
        (NameNode.new (fs.uuid_cur + 1) name (.file (calculate_hash [])))) := by
    rw [htgB, lookupA_insertA]
    simp [TagNode.add_file]
  have hBin : lookupA fsB.store.inodes parent = some (.toTag t.id) := by
    rw [hinB, lookupA_insertA, if_neg hp2, lookupA_insertA]
    by_cases hpd : parent = (t.add_file (NameNode.new fs.uuid_cur name
        (.file (calculate_hash fs.hasher)))).dir_attr.inode
    · simp only [hpd, if_pos rfl]
      simp [TagNode.add_file]
    · rw [if_neg hpd, ht1A]
  have hBnm : lookupA fsB.store.namenodes name =
      some (insertSorted (fs.uuid_cur + 1) (insertSorted fs.uuid_cur
        ((lookupA fs.store.namenodes name).getD []))) := by
    rw [hnmB, hnmA]
    simp only [lookupA_insertA, if_pos rfl]
    simp [lookupA_insertA]
  rw [e1]
  dsimp only
  rw [e2]
  dsimp only
  refine ⟨⟨a1, rfl⟩, ⟨a2, rfl⟩, hneU, ?_, ?_, ?_⟩
  · exact ⟨NameNode.new fs.uuid_cur name (.file (calculate_hash fs.hasher)),
      NameNode.new (fs.uuid_cur + 1) name (.file (calculate_hash [])),
      hn1, hn2, rfl, rfl⟩
  · refine ⟨(t.add_file (NameNode.new fs.uuid_cur name
        (.file (calculate_hash fs.hasher)))).add_file
        (NameNode.new (fs.uuid_cur + 1) name (.file (calculate_hash []))), ?_, ?_, ?_⟩
    · simp only [TagFS.get_inode, hBin, hBtg, Option.map_some']
    · simp [TagNode.add_file, NameNode.new,
        mem_insertSorted_of_mem, mem_insertSorted_self]
    · simp [TagNode.add_file, NameNode.new, mem_insertSorted_self]
  · exact ⟨insertSorted (fs.uuid_cur + 1) (insertSorted fs.uuid_cur
        ((lookupA fs.store.namenodes name).getD [])), hBnm,
      mem_insertSorted_of_mem _ (mem_insertSorted_self _ _),
      mem_insertSorted_self _ _⟩

/-- Two consecutive `create` calls with the same parent and name both succeed
and leave two distinct same-named `NameNode`s, both ids in the parent's
outgoing set and in the set under the name key. -/
theorem create_twice (fs : TagFS) (requid reqgid parent : Nat)
    (name : String) (mode : Nat) (now1 now2 : Int × Nat) (t : TagNode)
    (ht1 : lookupA fs.store.inodes parent = some (.toTag t.id))
    (ht2 : lookupA fs.store.tagnodes t.id = some t)
    (hmode : mode &&& S_IFMT = S_IFREG)
    (hp1 : parent ≠ fs.inode_cur) (hp2 : parent ≠ fs.inode_cur + 1) :
    (∃ a1 fh1, (fs.create requid reqgid parent name mode now1).2 = .created 0 a1 0 fh1 0) ∧
    (∃ a2 fh2, ((fs.create requid reqgid parent name mode now1).1.create
        requid reqgid parent name mode now2).2 = .created 0 a2 0 fh2 0) ∧
    fs.uuid_cur ≠ fs.uuid_cur + 1 ∧
    (∃ n1 n2,
      ((fs.create requid reqgid parent name mode now1).1.create
          requid reqgid parent name mode now2).1.get_name_node fs.uuid_cur = some n1 ∧
      ((fs.create requid reqgid parent name mode now1).1.create
          requid reqgid parent name mode now2).1.get_name_node (fs.uuid_cur + 1) = some n2 ∧
      n1.name = name ∧ n2.name = name) ∧
    (∃ t2,
      ((fs.create requid reqgid parent name mode now1).1.create
          requid reqgid parent name mode now2).1.get_inode parent = some (.tag t2) ∧
      fs.uuid_cur ∈ t2.dir_links ∧ fs.uuid_cur + 1 ∈ t2.dir_links) ∧
    (∃ s,
      lookupA ((fs.create requid reqgid parent name mode now1).1.create
          requid reqgid parent name mode now2).1.store.namenodes name = some s ∧
      fs.uuid_cur ∈ s ∧ fs.uuid_cur + 1 ∈ s) := by
  obtain ⟨fsA, a1, fh1, e1, hhA, hicA, hucA, htgA, hnmA, hniA, hinA⟩ :=
    create_file_step fs requid reqgid parent name mode now1 t ht1 ht2 hmode
  have ht1A : lookupA fsA.store.inodes parent = some (.toTag t.id) := by
    rw [hinA, lookupA_insertA, if_neg hp1, lookupA_insertA]
    by_cases hpd : parent = t.dir_attr.inode
    · simp [hpd]
    · simp [hpd, ht1]
  have ht2A : lookupA fsA.store.tagnodes t.id =
      some (t.add_file (NameNode.new fs.uuid_cur name (.file (calculate_hash fs.hasher)))) := by
    rw [htgA, lookupA_insertA]
    simp [TagNode.add_file]
  obtain ⟨fsB, a2, fh2, e2, hhB, hicB, hucB, htgB, hnmB, hniB, hinB⟩ :=
    create_file_step fsA requid reqgid parent name mode now2
      (t.add_file (NameNode.new fs.uuid_cur name (.file (calculate_hash fs.hasher))))
      ht1A ht2A hmode
  rw [hucA] at htgB hnmB hniB
  rw [hhA] at htgB hniB
  rw [hicA, hhA] at hinB
  have hneU : ¬ (fs.uuid_cur = fs.uuid_cur + 1) := by omega
  have hn1 : lookupA fsB.store.namenodes_id fs.uuid_cur =
      some (NameNode.new fs.uuid_cur name (.file (calculate_hash fs.hasher))) := by
    rw [hniB, hniA, lookupA_insertA, if_neg hneU, lookupA_insertA]
    simp
  have hn2 : lookupA fsB.store.namenodes_id (fs.uuid_cur + 1) =
      some (NameNode.new (fs.uuid_cur + 1) name (.file (calculate_hash []))) := by
    rw [hniB, lookupA_insertA]
    simp
  have hBtg : lookupA fsB.store.tagnodes t.id =
      some ((t.add_file (NameNode.new fs.uuid_cur name
          (.file (calculate_hash fs.hasher)))).add_file
        (NameNode.new (fs.uuid_cur + 1) name (.file (calculate_hash [])))) := by
    rw [htgB, lookupA_insertA]
    simp [TagNode.add_file]
  have hBin : lookupA fsB.store.inodes parent = some (.toTag t.id) := by
    rw [hinB, lookupA_insertA, if_neg hp2, lookupA_insertA]
    by_cases hpd : parent = (t.add_file (NameNode.new fs.uuid_cur name
        (.file (calculate_hash fs.hasher)))).dir_attr.inode
    · simp only [hpd, if_pos rfl]
      simp [TagNode.add_file]
    · rw [if_neg hpd, ht1A]
  have hBnm : lookupA fsB.store.namenodes name =
      some (insertSorted (fs.uuid_cur + 1) (insertSorted fs.uuid_cur
        ((lookupA fs.store.namenodes name).getD []))) := by
    rw [hnmB, hnmA]
    simp only [lookupA_insertA, if_pos rfl]
    simp [lookupA_insertA]
  rw [e1]
  dsimp only
  rw [e2]
  dsimp only
  refine ⟨⟨a1, fh1, rfl⟩, ⟨a2, fh2, rfl⟩, hneU, ?_, ?_, ?_⟩
  · exact ⟨NameNode.new fs.uuid_cur name (.file (calculate_hash fs.hasher)),
      NameNode.new (fs.uuid_cur + 1) name (.file (calculate_hash [])),
      hn1, hn2, rfl, rfl⟩
  · refine ⟨(t.add_file (NameNode.new fs.uuid_cur name
        (.file (calculate_hash fs.hasher)))).add_file
        (NameNode.new (fs.uuid_cur + 1) name (.file (calculate_hash []))), ?_, ?_, ?_⟩
    · simp only [TagFS.get_inode, hBin, hBtg, Option.map_some']
    · simp [TagNode.add_file, NameNode.new,
        mem_insertSorted_of_mem, mem_insertSorted_self]
    · simp [TagNode.add_file, NameNode.new, mem_insertSorted_self]
  · exact ⟨insertSorted (fs.uuid_cur + 1) (insertSorted fs.uuid_cur
        ((lookupA fs.store.namenodes name).getD [])), hBnm,
      mem_insertSorted_of_mem _ (mem_insertSorted_self _ _),
      mem_insertSorted_self _ _⟩

/-- C10: neither `create` nor `mknod` fails because the name already exists
in the parent tag: invoked twice with the same parent and name, both calls
succeed, producing two distinct NameNodes (distinct fresh ids) carrying the
same name, both present in the parent's outgoing set and both recorded in
the set stored under that name key in `namenodes/`. -/
theorem create_mknod_accept_duplicate_names (fs : TagFS) (requid reqgid parent : Nat)
    (name : String) (mode : Nat) (now1 now2 : Int × Nat) (t : TagNode)
    (ht1 : lookupA fs.store.inodes parent = some (.toTag t.id))
    (ht2 : lookupA fs.store.tagnodes t.id = some t)
    (hmode : mode &&& S_IFMT = S_IFREG)
    (hp1 : parent ≠ fs.inode_cur) (hp2 : parent ≠ fs.inode_cur + 1) :
    ((∃ a1, (fs.mknod requid reqgid parent name mode now1).2 = .entry 0 a1 0) ∧
     (∃ a2, ((fs.mknod requid reqgid parent name mode now1).1.mknod
         requid reqgid parent name mode now2).2 = .entry 0 a2 0) ∧
     fs.uuid_cur ≠ fs.uuid_cur + 1 ∧
     (∃ n1 n2,
       ((fs.mknod requid reqgid parent name mode now1).1.mknod
           requid reqgid parent name mode now2).1.get_name_node fs.uuid_cur = some n1 ∧
       ((fs.mknod requid reqgid parent name mode now1).1.mknod
           requid reqgid parent name mode now2).1.get_name_node (fs.uuid_cur + 1) = some n2 ∧
       n1.name = name ∧ n2.name = name) ∧
     (∃ t2,
       ((fs.mknod requid reqgid parent name mode now1).1.mknod
           requid reqgid parent name mode now2).1.get_inode parent = some (.tag t2) ∧
       fs.uuid_cur ∈ t2.dir_links ∧ fs.uuid_cur + 1 ∈ t2.dir_links) ∧
     (∃ s,
       lookupA ((fs.mknod requid reqgid parent name mode now1).1.mknod
           requid reqgid parent name mode now2).1.store.namenodes name = some s ∧
       fs.uuid_cur ∈ s ∧ fs.uuid_cur + 1 ∈ s)) ∧
    ((∃ a1 fh1, (fs.create requid reqgid parent name mode now1).2 = .created 0 a1 0 fh1 0) ∧
     (∃ a2 fh2, ((fs.create requid reqgid parent name mode now1).1.create
         requid reqgid parent name mode now2).2 = .created 0 a2 0 fh2 0) ∧
     fs.uuid_cur ≠ fs.uuid_cur + 1 ∧
     (∃ n1 n2,
       ((fs.create requid reqgid parent name mode now1).1.create
           requid reqgid parent name mode now2).1.get_name_node fs.uuid_cur = some n1 ∧
       ((fs.create requid reqgid parent name mode now1).1.create
           requid reqgid parent name mode now2).1.get_name_node (fs.uuid_cur + 1) = some n2 ∧
       n1.name = name ∧ n2.name = name) ∧
     (∃ t2,
       ((fs.create requid reqgid parent name mode now1).1.create
           requid reqgid parent name mode now2).1.get_inode parent = some (.tag t2) ∧
       fs.uuid_cur ∈ t2.dir_links ∧ fs.uuid_cur + 1 ∈ t2.dir_links) ∧
     (∃ s,
       lookupA ((fs.create requid reqgid parent name mode now1).1.create
           requid reqgid parent name mode now2).1.store.namenodes name = some s ∧
       fs.uuid_cur ∈ s ∧ fs.uuid_cur + 1 ∈ s)) :=
  ⟨mknod_twice fs requid reqgid parent name mode now1 now2 t ht1 ht2 hmode hp1 hp2,
   create_twice fs requid reqgid parent name mode now1 now2 t ht1 ht2 hmode hp1 hp2⟩

/-- Witness for C10 on the fresh mount: `mknod` then again with name `x`,
and likewise `create`; ids 2 and 3 both land in the name-key set. -/
theorem create_mknod_accept_duplicate_names_witness :
    (∃ a2, ((demoFS.mknod 1000 1000 1 "x" 0o100644 (5, 0)).1.mknod
        1000 1000 1 "x" 0o100644 (6, 0)).2 = .entry 0 a2 0) ∧
    (∃ s, lookupA ((demoFS.mknod 1000 1000 1 "x" 0o100644 (5, 0)).1.mknod
        1000 1000 1 "x" 0o100644 (6, 0)).1.store.namenodes "x" = some s ∧
      2 ∈ s ∧ 3 ∈ s) ∧
    (∃ a2 fh2, ((demoFS.create 1000 1000 1 "x" 0o100644 (5, 0)).1.create
        1000 1000 1 "x" 0o100644 (6, 0)).2 = .created 0 a2 0 fh2 0) := by
  have h := create_mknod_accept_duplicate_names demoFS 1000 1000 1 "x" 0o100644 (5, 0) (6, 0)
    demoRootTag (by decide) (by decide) (by decide) (by decide) (by decide)
  exact ⟨h.1.2.1, h.1.2.2.2.2.2, h.2.2.1⟩

/-! ### C1: outgoing ids of a TagNode must exist as NameNodes -/

/-- C1 fails on the code: after `mknod(parent=1, name="d", mode=0o040755)` on
the fresh mount, the new directory's TagNode (inode 3) holds the ids of its
`"."` and `".."` NameNodes (3 and 4) in `dir_links`, but neither id was ever
passed to `insert_name_node`, so `get_name_node` fails on both and `readdir`
of the new directory emits nothing. -/
theorem dot_dotdot_not_persisted :
    dirLinksAt demoMk 3 = some [3, 4] ∧
    demoMk.get_name_node 3 = none ∧
    demoMk.get_name_node 4 = none ∧
    demoMk.readdir 3 0 = .ok [] := by decide

end TagFs
